import Mathlib

/-!
Shallow embedding of the swipeHire job-scraper repository, together with
proofs of the behavioural claims about it.

The Python source is embedded as executable Lean definitions:

* string-searching (Python's `in` on strings) is modelled over `List Char`;
* `str.lower` is modelled as ASCII lower-casing (every string constant the
  scraper compares against is ASCII);
* I/O-dependent parts (HTTP fetches, the DOM, the database connection) are
  passed in as explicit oracles / explicit table states;
* timestamps are modelled as integers (the code only compares them).
-/

set_option maxHeartbeats 1000000

namespace SwipeHire

/-! ## String utilities shared by the scrapers -/

/-- Does the first list occur at the head of the second? -/
def listPre : List Char → List Char → Bool
  | [], _ => true
  | _ :: _, [] => false
  | a :: as, b :: bs => a == b && listPre as bs

/-- Does the first list occur contiguously anywhere inside the second? -/
def containsSub (needle : List Char) : List Char → Bool
  | [] => listPre needle []
  | c :: rest => listPre needle (c :: rest) || containsSub needle rest

/-- Python `needle in hay` for strings (contiguous substring test). -/
def strIn (needle hay : String) : Bool := containsSub needle.data hay.data

/-- Python `str.lower`, modelled on ASCII characters. -/
def pyLower (s : String) : String := String.mk (s.data.map Char.toLower)

/-! ## Keyword classifiers

`SimpleJobScraper._extract_job_type` / `_extract_experience_level`
(src/scraper/src/scrapers/simple_scraper.py, lines 262-284): the caller
passes already lower-cased text. -/

/-- Embeds `SimpleJobScraper._extract_job_type`. -/
def simple_extract_job_type (description : String) : String :=
  if ["full-time", "full time", "fulltime"].any (fun t => strIn t description) then
    "full-time"
  else if ["part-time", "part time", "parttime"].any (fun t => strIn t description) then
    "part-time"
  else if ["contract", "contractor", "freelance"].any (fun t => strIn t description) then
    "contract"
  else if ["intern", "internship"].any (fun t => strIn t description) then
    "internship"
  else
    "full-time"

/-- Embeds `SimpleJobScraper._extract_experience_level`. -/
def simple_extract_experience_level (description : String) : String :=
  if ["senior", "lead", "principal", "5+ years", "5 years"].any
      (fun t => strIn t description) then
    "senior"
  else if ["junior", "entry", "entry-level", "new grad", "recent grad"].any
      (fun t => strIn t description) then
    "entry"
  else if ["mid", "intermediate", "2-3 years", "3+ years"].any
      (fun t => strIn t description) then
    "mid"
  else
    "mid"

/-- Embeds `CraigslistScraper._extract_job_type`
(craigslist_scraper.py, lines 281-294): lower-cases its input itself. -/
def craigslist_extract_job_type (description : String) : String :=
  let dl := pyLower description
  if ["full-time", "full time", "fulltime"].any (fun t => strIn t dl) then
    "full-time"
  else if ["part-time", "part time", "parttime"].any (fun t => strIn t dl) then
    "part-time"
  else if ["contract", "contractor", "freelance"].any (fun t => strIn t dl) then
    "contract"
  else if ["intern", "internship"].any (fun t => strIn t dl) then
    "internship"
  else
    "full-time"

/-- Embeds `CraigslistScraper._extract_experience_level`
(craigslist_scraper.py, lines 296-307). -/
def craigslist_extract_experience_level (description : String) : String :=
  let dl := pyLower description
  if ["senior", "lead", "principal", "5+ years", "5 years"].any
      (fun t => strIn t dl) then
    "senior"
  else if ["junior", "entry", "entry-level", "new grad", "recent grad"].any
      (fun t => strIn t dl) then
    "entry"
  else if ["mid", "intermediate", "2-3 years", "3+ years"].any
      (fun t => strIn t dl) then
    "mid"
  else
    "mid"

/-- All job-type keywords checked by `_extract_job_type`. -/
def job_type_keywords : List String :=
  ["full-time", "full time", "fulltime", "part-time", "part time", "parttime",
   "contract", "contractor", "freelance", "intern", "internship"]

/-- All experience-level keywords checked by `_extract_experience_level`. -/
def experience_keywords : List String :=
  ["senior", "lead", "principal", "5+ years", "5 years",
   "junior", "entry", "entry-level", "new grad", "recent grad",
   "mid", "intermediate", "2-3 years", "3+ years"]

/-! ## The ad-hoc runner's job records (src/job_scraper.py)

`JobScraper.scrape_craigslist` builds dicts with exactly these keys
(job_scraper.py, lines 509-520). -/

structure SJob where
  id : String
  title : String
  company : String
  location : String
  salary : String
  description : String
  tags : List String
  source : String
  datePosted : String
  link : String
deriving DecidableEq, Repr

/-- The deduplication key used by `JobScraper.scrape_all_sources`
(job_scraper.py, line 662): `(job['title'].lower(), job['company'].lower())`. -/
def dedupKey (j : SJob) : String × String := (pyLower j.title, pyLower j.company)

/-- Embeds the dedup loop of `JobScraper.scrape_all_sources`
(job_scraper.py, lines 657-665); `seen` carries the keys already emitted
(the Python `set`, modelled as a list with membership). -/
def removeDuplicates : List SJob → List (String × String) → List SJob
  | [], _ => []
  | j :: rest, seen =>
    if dedupKey j ∈ seen then removeDuplicates rest seen
    else j :: removeDuplicates rest (dedupKey j :: seen)

/-- The dedup step of `scrape_all_sources`, starting from an empty `seen` set. -/
def uniqueJobs (allJobs : List SJob) : List SJob := removeDuplicates allJobs []

/-! ## Tag generation (src/job_scraper.py, lines 600-642) -/

/-- The fixed keyword table of `JobScraper.generate_tags`, in source order. -/
def tech_keywords : List (String × List String) :=
  [("JavaScript", ["javascript", "js", "node.js", "nodejs"]),
   ("Python", ["python", "django", "flask"]),
   ("React", ["react", "reactjs"]),
   ("Java", ["java", "spring"]),
   ("PHP", ["php", "wordpress"]),
   ("Ruby", ["ruby", "rails"]),
   ("C#", ["c#", "csharp", ".net"]),
   ("Go", ["go", "golang"]),
   ("Rust", ["rust"]),
   ("TypeScript", ["typescript", "ts"]),
   ("Vue.js", ["vue", "vue.js"]),
   ("Angular", ["angular"]),
   ("MongoDB", ["mongodb", "mongo"]),
   ("PostgreSQL", ["postgresql", "postgres"]),
   ("MySQL", ["mysql"]),
   ("AWS", ["aws", "amazon web services"]),
   ("Docker", ["docker"]),
   ("Kubernetes", ["kubernetes", "k8s"]),
   ("DevOps", ["devops", "ci/cd"]),
   ("Mobile", ["ios", "android", "mobile", "react native"]),
   ("Remote", ["remote", "work from home", "wfh"]),
   ("Full-time", ["full time", "full-time", "fulltime"]),
   ("Part-time", ["part time", "part-time", "parttime"]),
   ("Contract", ["contract", "contractor", "freelance"]),
   ("Entry Level", ["entry level", "junior", "entry-level"]),
   ("Senior", ["senior", "lead", "principal"]),
   ("Frontend", ["frontend", "front-end", "front end", "ui", "ux"]),
   ("Backend", ["backend", "back-end", "back end", "api"]),
   ("Full Stack", ["full stack", "fullstack", "full-stack"])]

/-- The tag vocabulary: the keys of `tech_keywords`, in table order. -/
def tagVocabulary : List String := tech_keywords.map Prod.fst

/-- Embeds `JobScraper.generate_tags`: scan the table in order, collect each
tag one of whose keywords occurs in the lower-cased `"title description"`
text, and keep the first 6. -/
def generate_tags (title description : String) : List String :=
  let content := pyLower (title ++ " " ++ description)
  ((tech_keywords.filter (fun p => p.2.any (fun k => strIn k content))).map
    Prod.fst).take 6

/-! ## Job records and the jobs table

The scraped record assembled by `SimpleJobScraper._parse_job_listing`
(simple_scraper.py, lines 133-149); its keys are the columns the storage
clients insert.  Timestamps are modelled as integers. -/

structure JobData where
  title : String
  company : String
  location : String
  city : String
  province : String
  description : String
  full_description : String
  job_url : String
  source_portal : String
  contact_email : Option String
  contact_phone : Option String
  posted_date : Option Int
  job_type : String
  experience_level : String
  salary : String
deriving DecidableEq, Repr

/-- A row of the `jobs` table: the scraped record plus the storage-side
columns (`is_active` and the three timestamps). -/
structure Row where
  payload : JobData
  is_active : Bool
  scraped_at : Int
  created_at : Int
  updated_at : Int
deriving DecidableEq, Repr

/-- The `job_url` column of each table row. -/
def tableUrls (table : List Row) : List String := table.map (fun r => r.payload.job_url)

/-- Embeds the happy path of `SupabaseClient.save_job`
(supabase_client.py, lines 34-56): select rows with equal `job_url`; if any
exist return `False` without writing; otherwise stamp
`scraped_at`/`created_at`/`updated_at` with now, set `is_active = True`, and
insert.  Returns the Python return value and the new table state. -/
def supabase_save_job (table : List Row) (jd : JobData) (now : Int) : Bool × List Row :=
  if table.any (fun r => r.payload.job_url == jd.job_url) then (false, table)
  else (true, table ++ [⟨jd, true, now, now, now⟩])

/-- Embeds `PostgresClient.save_job` (postgres_client.py, lines 84-113):
`SELECT id FROM jobs WHERE job_url = %s`; if a row comes back return
`False`, else `INSERT` the 15 scraped columns, the remaining columns taking
their declared defaults (`is_active TRUE`, timestamps `NOW()`). -/
def postgres_save_job (table : List Row) (jd : JobData) (now : Int) : Bool × List Row :=
  if table.any (fun r => r.payload.job_url == jd.job_url) then (false, table)
  else (true, table ++ [⟨jd, true, now, now, now⟩])

/-- A whole sequence of Supabase `save_job` calls, threading the table. -/
def supabase_save_all (table : List Row) (jobs : List (JobData × Int)) : List Row :=
  jobs.foldl (fun t p => (supabase_save_job t p.1 p.2).2) table

/-- A whole sequence of Postgres `save_job` calls, threading the table. -/
def postgres_save_all (table : List Row) (jobs : List (JobData × Int)) : List Row :=
  jobs.foldl (fun t p => (postgres_save_job t p.1 p.2).2) table

/-! ## Cleanup of old jobs -/

/-- The write performed on a matching row by both clients' cleanup
statements: set `is_active` to false and refresh `updated_at`. -/
def markInactive (now : Int) (r : Row) : Row := { r with is_active := false, updated_at := now }

/-- Embeds `SupabaseClient.cleanup_old_jobs` (supabase_client.py, lines
115-133): `UPDATE jobs SET is_active = false, updated_at = now WHERE
scraped_at < cutoff`, returning the number of rows the update touched
(`len(result.data)`) and the new table. -/
def supabase_cleanup_old_jobs (table : List Row) (cutoff now : Int) : Nat × List Row :=
  ((table.filter (fun r => decide (r.scraped_at < cutoff))).length,
   table.map (fun r => if r.scraped_at < cutoff then markInactive now r else r))

/-- Embeds `PostgresClient.cleanup_old_jobs` (postgres_client.py, lines
150-166): the same update restricted by `AND is_active = TRUE`, returning
`cur.rowcount`. -/
def postgres_cleanup_old_jobs (table : List Row) (cutoff now : Int) : Nat × List Row :=
  ((table.filter (fun r => decide (r.scraped_at < cutoff) && r.is_active)).length,
   table.map (fun r => if r.scraped_at < cutoff ∧ r.is_active = true then markInactive now r else r))

/-! ## The retry loop of `SupabaseClient.save_job`

The body of one attempt (select + insert against the network) is modelled
by an outcome oracle: it can raise, find a duplicate, insert successfully,
or get an empty insert result. -/

inductive SaveOutcome
  | raiseExc
  | dup
  | ok
  | insertFailed
deriving DecidableEq, Repr

/-- `max_retries` in `SupabaseClient.save_job` (supabase_client.py, line 31). -/
def max_retries : Nat := 3

/-- What a run of the retry loop did: the returned Boolean, the number of
attempts executed, and the sleeps (in seconds) between failed attempts. -/
structure SaveTrace where
  result : Bool
  attemptsMade : Nat
  sleeps : List Nat
deriving DecidableEq, Repr

/-- Embeds the `for attempt in range(max_retries)` loop of
`SupabaseClient.save_job` (supabase_client.py, lines 33-67) over the list of
outcomes of the successive attempts: a duplicate returns `False`, a
successful insert returns `True`, an empty insert result returns `False`;
an exception on a non-final attempt sleeps 2 seconds and retries, and on the
final attempt returns `False`; falling out of the loop returns `False`. -/
def runAttempts : List SaveOutcome → SaveTrace
  | [] => ⟨false, 0, []⟩
  | o :: rest =>
    match o with
    | .dup => ⟨false, 1, []⟩
    | .ok => ⟨true, 1, []⟩
    | .insertFailed => ⟨false, 1, []⟩
    | .raiseExc =>
      if rest.isEmpty then ⟨false, 1, []⟩
      else
        let t := runAttempts rest
        ⟨t.result, t.attemptsMade + 1, 2 :: t.sleeps⟩

/-- `SupabaseClient.save_job` as a function of the outcome of each attempt. -/
def supabase_save_job_retry (sched : Nat → SaveOutcome) : SaveTrace :=
  runAttempts ((List.range max_retries).map sched)

/-! ## The per-city scraping loops

Network results are an oracle `fetch category requested` giving the jobs a
category scrape yields. -/

/-- The keys of both scrapers' `base_urls` tables. -/
def base_url_cities : List String := ["vancouver", "toronto", "calgary"]

/-- The category codes tried by `SimpleJobScraper.scrape_jobs`
(simple_scraper.py, line 46). -/
def simple_categories : List String :=
  ["jjj", "sof", "sad", "fbh", "ret", "ofc", "lab", "med", "trp"]

/-- The category codes tried by `CraigslistScraper.scrape_jobs`
(craigslist_scraper.py, line 82). -/
def craigslist_categories : List String := ["jjj"]

/-- Embeds the category loop of `SimpleJobScraper.scrape_jobs` (lines
48-61): stop once `max_jobs` are collected, otherwise scrape the category
asking for the remaining quota and extend. -/
def simpleCategoryLoop (fetch : String → Nat → List JobData) (maxJobs : Nat) :
    List String → List JobData → List JobData
  | [], jobs => jobs
  | c :: cs, jobs =>
    if maxJobs ≤ jobs.length then jobs
    else simpleCategoryLoop fetch maxJobs cs (jobs ++ fetch c (maxJobs - jobs.length))

/-- Embeds `SimpleJobScraper.scrape_jobs` (simple_scraper.py, lines 35-68):
unsupported city gives `[]`; otherwise run the category loop and truncate to
`max_jobs` (`return jobs[:max_jobs]`). -/
def simple_scrape_jobs (fetch : String → Nat → List JobData) (city : String)
    (maxJobs : Nat) : List JobData :=
  if city ∈ base_url_cities then
    (simpleCategoryLoop fetch maxJobs simple_categories []).take maxJobs
  else []

/-- Embeds the category loop of `CraigslistScraper.scrape_jobs` (lines
84-89): extend with a full-quota category scrape first, then break if over
quota. -/
def craigslistCategoryLoop (fetch : String → Nat → List JobData) (maxJobs : Nat) :
    List String → List JobData → List JobData
  | [], jobs => jobs
  | c :: cs, jobs =>
    let jobs2 := jobs ++ fetch c maxJobs
    if maxJobs ≤ jobs2.length then jobs2
    else craigslistCategoryLoop fetch maxJobs cs jobs2

/-- Embeds `CraigslistScraper.scrape_jobs` (craigslist_scraper.py, lines
71-99): unsupported city gives `[]`, and `jobs = jobs[:max_jobs]` before
returning. -/
def craigslist_scrape_jobs (fetch : String → Nat → List JobData) (city : String)
    (maxJobs : Nat) : List JobData :=
  if city ∈ base_url_cities then
    (craigslistCategoryLoop fetch maxJobs craigslist_categories []).take maxJobs
  else []

/-! ## The worker entry point (src/scraper/main.py)

`main` reads `RUN_ONCE` and either performs one scraping cycle
(`run_once`) or runs `run_scheduler`: one initial cycle, then a
`while True` loop ticking once per minute.  The third-party `schedule`
library's timer is modelled from the spec ("loop forever on a fixed-hour
schedule"): a pending job fires once the configured number of hours has
elapsed since the last run. -/

/-- The `RUN_ONCE` test of `main` (main.py, line 156):
`os.getenv('RUN_ONCE', 'false').lower() == 'true'`. -/
def runOnceFlag (v : Option String) : Bool := pyLower (v.getD "false") == "true"

/-- Scheduler-loop state: cycles completed so far and minutes since the last
cycle. -/
structure SchedState where
  cycles : Nat
  minutesSinceRun : Nat
deriving DecidableEq, Repr

/-- Modelled from the spec: one `schedule.run_pending()` check after one
minute of sleep — the job fires when the period (in minutes) has elapsed. -/
def schedTick (periodMinutes : Nat) (s : SchedState) : SchedState :=
  if periodMinutes ≤ s.minutesSinceRun + 1 then ⟨s.cycles + 1, 0⟩
  else ⟨s.cycles, s.minutesSinceRun + 1⟩

/-- The observable state of the worker process: returned from `main`, or
still inside the scheduler loop. -/
inductive WorkerProc
  | finished (cyclesDone : Nat)
  | running (s : SchedState)
deriving DecidableEq, Repr

/-- Embeds `main` (main.py, lines 151-159): `run_once` performs one cycle
and returns; `run_scheduler` performs the initial cycle and enters the loop. -/
def worker_main_init (runOnceEnv : Option String) : WorkerProc :=
  if runOnceFlag runOnceEnv then .finished 1 else .running ⟨1, 0⟩

/-- One minute of worker execution: a returned process stays returned; the
scheduler loop ticks its timer with period `60 * SCRAPE_INTERVAL_HOURS`. -/
def worker_step (intervalHours : Nat) : WorkerProc → WorkerProc
  | .finished n => .finished n
  | .running s => .running (schedTick (60 * intervalHours) s)

/-- The worker after `n` minutes. -/
def worker_trace (runOnceEnv : Option String) (intervalHours n : Nat) : WorkerProc :=
  (worker_step intervalHours)^[n] (worker_main_init runOnceEnv)

/-! ## Detail-page extraction and listing parsing -/

/-- Python `str.strip` (whitespace at both ends). -/
def pyStrip (s : String) : String := s.trim

/-- The fields `SimpleJobScraper._get_job_details` may populate (a Python
dict read back with `.get(key, default)`); a selector miss simply leaves the
field absent. -/
structure Details where
  description : Option String := none
  full_description : Option String := none
  email : Option String := none
  phone : Option String := none
  company : Option String := none
  location : Option String := none
  posted_date : Option Int := none
  salary : Option String := none
  job_type : Option String := none
  experience_level : Option String := none
deriving DecidableEq, Repr

/-- The `{}` returned by `_get_job_details` when fetching or parsing the
detail page raises (simple_scraper.py, lines 226-228). -/
def emptyDetails : Details := {}

/-- Embeds `SimpleJobScraper._extract_city_from_url`
(simple_scraper.py, lines 230-239). -/
def extract_city_from_url (url : String) : String :=
  if strIn "vancouver" url then "vancouver"
  else if strIn "toronto" url then "toronto"
  else if strIn "calgary" url then "calgary"
  else "unknown"

/-- Embeds `SimpleJobScraper._get_province` (simple_scraper.py, lines
241-248). -/
def simple_get_province (city : String) : String :=
  (([("vancouver", "BC"), ("toronto", "ON"), ("calgary", "AB")].lookup city).getD
    "Canada")

/-- Helper for `pyTitle`: split a character list at spaces. -/
def splitSpaces : List Char → List Char → List (List Char)
  | [], acc => [acc.reverse]
  | c :: rest, acc =>
    if c == ' ' then acc.reverse :: splitSpaces rest []
    else splitSpaces rest (c :: acc)

/-- Python `str.capitalize` for one ASCII word. -/
def pyCapitalizeWord (w : List Char) : String :=
  match w with
  | [] => ""
  | c :: cs => String.mk (Char.toUpper c :: cs.map Char.toLower)

/-- Python `str.title` on space-separated ASCII words (used for the default
location string `f"{city.title()}, Canada"`). -/
def pyTitle (s : String) : String :=
  String.intercalate " " ((splitSpaces s.data []).map pyCapitalizeWord)

/-- Embeds `SimpleJobScraper._parse_job_listing` (simple_scraper.py, lines
110-155): `None` when the link has no href or the title has fewer than 3
characters; otherwise a record whose missing detail fields degrade to the
documented defaults. -/
def simple_parse_job_listing (base_url : String) (href : Option String)
    (title : String) (d : Details) (now : Int) : Option JobData :=
  match href with
  | none => none
  | some u =>
    if u = "" then none
    else
      let job_url := if listPre "http".data u.data then u else base_url ++ u
      if title.length < 3 then none
      else
        let city := extract_city_from_url job_url
        some
          { title := title
            company := d.company.getD "Company Not Listed"
            location := d.location.getD (pyTitle city ++ ", Canada")
            city := city
            province := simple_get_province city
            description := d.description.getD title
            full_description := (d.full_description).getD (d.description.getD title)
            job_url := job_url
            source_portal := "craigslist"
            contact_email := d.email
            contact_phone := d.phone
            posted_date := some (d.posted_date.getD now)
            job_type := d.job_type.getD "full-time"
            experience_level := d.experience_level.getD "mid"
            salary := d.salary.getD "Not specified" }

/-- The skip patterns of `CraigslistScraper._extract_company`
(craigslist_scraper.py, line 275). -/
def company_skip_patterns : List String :=
  ["job", "position", "we are", "looking for", "hiring"]

/-- Embeds `CraigslistScraper._extract_company` (craigslist_scraper.py,
lines 267-279): the first of the first 3 stripped description lines that is
nonempty, shorter than 100 characters and free of the skip patterns;
otherwise `"Company Not Listed"`. -/
def craigslist_extract_company (description : String) : String :=
  let ls := ((description.splitOn "\n").take 3).map pyStrip
  (ls.find? (fun l =>
      !(l == "") && decide (l.length < 100)
        && !(company_skip_patterns.any (fun p => strIn p (pyLower l))))).getD
    "Company Not Listed"

/-! ## Theorems -/

/-- Helper: the simple job-type classifier only returns the four constants. -/
theorem simple_jt_mem (s : String) :
    simple_extract_job_type s ∈ (["full-time", "part-time", "contract", "internship"] : List String) := by
  unfold simple_extract_job_type
  split_ifs <;> simp

/-- Helper: the simple experience classifier only returns the three constants. -/
theorem simple_exp_mem (s : String) :
    simple_extract_experience_level s ∈ (["senior", "entry", "mid"] : List String) := by
  unfold simple_extract_experience_level
  split_ifs <;> simp

/-- Helper: the craigslist job-type classifier only returns the four constants. -/
theorem craig_jt_mem (s : String) :
    craigslist_extract_job_type s ∈ (["full-time", "part-time", "contract", "internship"] : List String) := by
  unfold craigslist_extract_job_type
  dsimp only
  split_ifs <;> simp

/-- Helper: the craigslist experience classifier only returns the three constants. -/
theorem craig_exp_mem (s : String) :
    craigslist_extract_experience_level s ∈ (["senior", "entry", "mid"] : List String) := by
  unfold craigslist_extract_experience_level
  dsimp only
  split_ifs <;> simp

/-- C2: both scrapers' job-type and experience-level classifiers are total
(they always return a value from the fixed enumeration, never empty,
falling back to `"full-time"` / `"mid"` when no keyword occurs in the
searched text) and idempotent (re-classifying an output returns it
unchanged). -/
theorem claimC2 (s : String) :
    (simple_extract_job_type s ∈ (["full-time", "part-time", "contract", "internship"] : List String)
      ∧ simple_extract_job_type s ≠ ""
      ∧ (job_type_keywords.all (fun t => !strIn t s) = true →
          simple_extract_job_type s = "full-time")
      ∧ simple_extract_job_type (simple_extract_job_type s) = simple_extract_job_type s)
    ∧ (simple_extract_experience_level s ∈ (["senior", "entry", "mid"] : List String)
      ∧ simple_extract_experience_level s ≠ ""
      ∧ (experience_keywords.all (fun t => !strIn t s) = true →
          simple_extract_experience_level s = "mid")
      ∧ simple_extract_experience_level (simple_extract_experience_level s)
          = simple_extract_experience_level s)
    ∧ (craigslist_extract_job_type s ∈ (["full-time", "part-time", "contract", "internship"] : List String)
      ∧ craigslist_extract_job_type s ≠ ""
      ∧ (job_type_keywords.all (fun t => !strIn t (pyLower s)) = true →
          craigslist_extract_job_type s = "full-time")
      ∧ craigslist_extract_job_type (craigslist_extract_job_type s)
          = craigslist_extract_job_type s)
    ∧ (craigslist_extract_experience_level s ∈ (["senior", "entry", "mid"] : List String)
      ∧ craigslist_extract_experience_level s ≠ ""
      ∧ (experience_keywords.all (fun t => !strIn t (pyLower s)) = true →
          craigslist_extract_experience_level s = "mid")
      ∧ craigslist_extract_experience_level (craigslist_extract_experience_level s)
          = craigslist_extract_experience_level s) := by
  refine ⟨⟨simple_jt_mem s, ?_, ?_, ?_⟩, ⟨simple_exp_mem s, ?_, ?_, ?_⟩,
    ⟨craig_jt_mem s, ?_, ?_, ?_⟩, ⟨craig_exp_mem s, ?_, ?_, ?_⟩⟩
  · have h := simple_jt_mem s
    simp only [List.mem_cons, List.not_mem_nil, or_false] at h
    rcases h with h | h | h | h <;> rw [h] <;> decide
  · intro h
    simp only [job_type_keywords, List.all_cons, List.all_nil, Bool.and_eq_true,
      Bool.not_eq_true'] at h
    unfold simple_extract_job_type
    simp only [List.any_cons, List.any_nil, h.1, h.2.1, h.2.2.1]
    simp [h.1, h.2.1, h.2.2.1, h.2.2.2.1, h.2.2.2.2.1, h.2.2.2.2.2.1,
      h.2.2.2.2.2.2.1, h.2.2.2.2.2.2.2.1, h.2.2.2.2.2.2.2.2.1,
      h.2.2.2.2.2.2.2.2.2.1, h.2.2.2.2.2.2.2.2.2.2]
  · have h := simple_jt_mem s
    simp only [List.mem_cons, List.not_mem_nil, or_false] at h
    rcases h with h | h | h | h <;> rw [h] <;> decide
  · have h := simple_exp_mem s
    simp only [List.mem_cons, List.not_mem_nil, or_false] at h
    rcases h with h | h | h <;> rw [h] <;> decide
  · intro h
    simp only [experience_keywords, List.all_cons, List.all_nil, Bool.and_eq_true,
      Bool.not_eq_true'] at h
    unfold simple_extract_experience_level
    simp [h.1, h.2.1, h.2.2.1, h.2.2.2.1, h.2.2.2.2.1, h.2.2.2.2.2.1,
      h.2.2.2.2.2.2.1, h.2.2.2.2.2.2.2.1, h.2.2.2.2.2.2.2.2.1,
      h.2.2.2.2.2.2.2.2.2.1, h.2.2.2.2.2.2.2.2.2.2.1,
      h.2.2.2.2.2.2.2.2.2.2.2.1, h.2.2.2.2.2.2.2.2.2.2.2.2.1,
      h.2.2.2.2.2.2.2.2.2.2.2.2.2]
  · have h := simple_exp_mem s
    simp only [List.mem_cons, List.not_mem_nil, or_false] at h
    rcases h with h | h | h <;> rw [h] <;> decide
  · have h := craig_jt_mem s
    simp only [List.mem_cons, List.not_mem_nil, or_false] at h
    rcases h with h | h | h | h <;> rw [h] <;> decide
  · intro h
    simp only [job_type_keywords, List.all_cons, List.all_nil, Bool.and_eq_true,
      Bool.not_eq_true'] at h
    unfold craigslist_extract_job_type
    simp [h.1, h.2.1, h.2.2.1, h.2.2.2.1, h.2.2.2.2.1, h.2.2.2.2.2.1,
      h.2.2.2.2.2.2.1, h.2.2.2.2.2.2.2.1, h.2.2.2.2.2.2.2.2.1,
      h.2.2.2.2.2.2.2.2.2.1, h.2.2.2.2.2.2.2.2.2.2]
  · have h := craig_jt_mem s
    simp only [List.mem_cons, List.not_mem_nil, or_false] at h
    rcases h with h | h | h | h <;> rw [h] <;> decide
  · have h := craig_exp_mem s
    simp only [List.mem_cons, List.not_mem_nil, or_false] at h
    rcases h with h | h | h <;> rw [h] <;> decide
  · intro h
    simp only [experience_keywords, List.all_cons, List.all_nil, Bool.and_eq_true,
      Bool.not_eq_true'] at h
    unfold craigslist_extract_experience_level
    simp [h.1, h.2.1, h.2.2.1, h.2.2.2.1, h.2.2.2.2.1, h.2.2.2.2.2.1,
      h.2.2.2.2.2.2.1, h.2.2.2.2.2.2.2.1, h.2.2.2.2.2.2.2.2.1,
      h.2.2.2.2.2.2.2.2.2.1, h.2.2.2.2.2.2.2.2.2.2.1,
      h.2.2.2.2.2.2.2.2.2.2.2.1, h.2.2.2.2.2.2.2.2.2.2.2.2.1,
      h.2.2.2.2.2.2.2.2.2.2.2.2.2]
  · have h := craig_exp_mem s
    simp only [List.mem_cons, List.not_mem_nil, or_false] at h
    rcases h with h | h | h <;> rw [h] <;> decide

/-- C2 witness: the classifiers at a concrete keyword-free input, with the
default-value hypotheses discharged by evaluation. -/
theorem claimC2_witness :
    simple_extract_job_type "zzz" = "full-time"
      ∧ simple_extract_experience_level "zzz" = "mid"
      ∧ craigslist_extract_job_type "zzz" = "full-time"
      ∧ craigslist_extract_experience_level "zzz" = "mid" :=
  ⟨(claimC2 "zzz").1.2.2.1 (by decide),
   (claimC2 "zzz").2.1.2.2.1 (by decide),
   (claimC2 "zzz").2.2.1.2.2.1 (by decide),
   (claimC2 "zzz").2.2.2.2.2.1 (by decide)⟩

/-- C9: the Craigslist-variant classifiers agree with the Simple-variant
classifiers applied to the lower-cased input, for every string. -/
theorem claimC9 (s : String) :
    craigslist_extract_job_type s = simple_extract_job_type (pyLower s)
      ∧ craigslist_extract_experience_level s
          = simple_extract_experience_level (pyLower s) :=
  ⟨rfl, rfl⟩

/-- Helper: the dedup loop only keeps elements of its input, in order. -/
theorem removeDuplicates_sublist (l : List SJob) (seen : List (String × String)) :
    (removeDuplicates l seen).Sublist l := by
  induction l generalizing seen with
  | nil => simp [removeDuplicates]
  | cons j rest ih =>
    unfold removeDuplicates
    split_ifs with h
    · exact (ih seen).cons j
    · exact (ih _).cons₂ j

/-- Helper: an element emitted by the dedup loop has a key outside `seen`,
and is the first input element carrying its key. -/
theorem mem_removeDuplicates (l : List SJob) :
    ∀ (seen : List (String × String)) (j : SJob), j ∈ removeDuplicates l seen →
      dedupKey j ∉ seen ∧
        l.find? (fun x => decide (dedupKey x = dedupKey j)) = some j := by
  induction l with
  | nil => intro seen j h; simp [removeDuplicates] at h
  | cons a rest ih =>
    intro seen j h
    unfold removeDuplicates at h
    split_ifs at h with ha
    · obtain ⟨hnot, hfind⟩ := ih seen j h
      have hne : dedupKey a ≠ dedupKey j := fun he => hnot (he ▸ ha)
      refine ⟨hnot, ?_⟩
      rw [List.find?_cons_of_neg, hfind]
      simp [hne]
    · rcases List.mem_cons.mp h with rfl | hmem
      · refine ⟨ha, ?_⟩
        rw [List.find?_cons_of_pos _ (by simp)]
      · obtain ⟨hnot, hfind⟩ := ih _ j hmem
        have hne : dedupKey a ≠ dedupKey j := by
          intro he
          exact hnot (by rw [← he]; exact List.mem_cons_self _ _)
        refine ⟨fun hs => hnot (List.mem_cons_of_mem _ hs), ?_⟩
        rw [List.find?_cons_of_neg, hfind]
        simp [hne]

/-- Helper: the dedup loop's output has pairwise distinct keys. -/
theorem removeDuplicates_pairwise (l : List SJob) :
    ∀ seen, (removeDuplicates l seen).Pairwise (fun a b => dedupKey a ≠ dedupKey b) := by
  induction l with
  | nil => intro seen; simp [removeDuplicates]
  | cons a rest ih =>
    intro seen
    unfold removeDuplicates
    split_ifs with ha
    · exact ih seen
    · refine List.Pairwise.cons ?_ (ih _)
      intro b hb he
      apply (mem_removeDuplicates rest _ b hb).1
      rw [← he]
      exact List.mem_cons_self _ _

/-- Helper: every input key that is not already in `seen` survives dedup. -/
theorem removeDuplicates_complete (l : List SJob) :
    ∀ seen x, x ∈ l →
      dedupKey x ∈ seen ∨ ∃ j ∈ removeDuplicates l seen, dedupKey j = dedupKey x := by
  induction l with
  | nil => intro seen x h; simp at h
  | cons a rest ih =>
    intro seen x hx
    unfold removeDuplicates
    split_ifs with ha
    · rcases List.mem_cons.mp hx with rfl | hmem
      · exact Or.inl ha
      · exact ih seen x hmem
    · rcases List.mem_cons.mp hx with rfl | hmem
      · exact Or.inr ⟨_, List.mem_cons_self _ _, rfl⟩
      · rcases ih (dedupKey a :: seen) x hmem with hin | ⟨j, hj, he⟩
        · rcases List.mem_cons.mp hin with he | hs
          · exact Or.inr ⟨a, List.mem_cons_self _ _, he.symm⟩
          · exact Or.inl hs
        · exact Or.inr ⟨j, List.mem_cons_of_mem _ hj, he⟩

/-- C4: the dedup step of `scrape_all_sources` keeps a subsequence of the
input (so relative order is preserved) in which no two jobs share the
lower-cased (title, company) key, every input key is represented, and each
kept job is the first input occurrence of its key. -/
theorem claimC4 (allJobs : List SJob) :
    (uniqueJobs allJobs).Sublist allJobs
      ∧ (uniqueJobs allJobs).Pairwise (fun a b => dedupKey a ≠ dedupKey b)
      ∧ (∀ x ∈ allJobs, ∃ j ∈ uniqueJobs allJobs, dedupKey j = dedupKey x)
      ∧ (∀ j ∈ uniqueJobs allJobs,
          allJobs.find? (fun x => decide (dedupKey x = dedupKey j)) = some j) := by
  refine ⟨removeDuplicates_sublist allJobs [], removeDuplicates_pairwise allJobs [],
    ?_, fun j hj => (mem_removeDuplicates allJobs [] j hj).2⟩
  intro x hx
  rcases removeDuplicates_complete allJobs [] x hx with h | h
  · simp at h
  · exact h

/-- A concrete job record, for the C4 witness. -/
def sampleJobA : SJob :=
  ⟨"craigslist_1", "Line Cook", "Acme Foods", "Vancouver, BC", "$20/hr",
   "cook things", [], "Craigslist Vancouver", "2025-01-01", "https://a"⟩

/-- A concrete exact repeat of `sampleJobA` up to case, for the C4 witness. -/
def sampleJobB : SJob :=
  ⟨"craigslist_2", "LINE COOK", "acme foods", "Vancouver, BC", "$21/hr",
   "cook more things", [], "Craigslist Vancouver", "2025-01-02", "https://b"⟩

/-- C4 witness: on a concrete batch with an exact repeat, the repeat's key is
still represented in the deduplicated output. -/
theorem claimC4_witness :
    ∃ j ∈ uniqueJobs [sampleJobA, sampleJobB], dedupKey j = dedupKey sampleJobB :=
  (claimC4 [sampleJobA, sampleJobB]).2.2.1 sampleJobB (by decide)

/-- C10: `generate_tags` returns at most 6 tags, forming a subsequence of the
fixed tag vocabulary in table order (hence no repeats and every tag drawn
from the vocabulary). -/
theorem claimC10 (title description : String) :
    (generate_tags title description).length ≤ 6
      ∧ (generate_tags title description).Sublist tagVocabulary
      ∧ (generate_tags title description).Nodup := by
  have hsub : (generate_tags title description).Sublist tagVocabulary := by
    unfold generate_tags tagVocabulary
    exact (List.take_sublist _ _).trans ((List.filter_sublist _).map Prod.fst)
  have hvocab : tagVocabulary.Nodup := by decide
  refine ⟨?_, hsub, hvocab.sublist hsub⟩
  unfold generate_tags
  rw [List.length_take]
  exact Nat.min_le_left _ _

/-- Helper: a url occurs among the table's urls iff the clients' duplicate
check (`any` over rows) fires. -/
theorem mem_tableUrls_iff_any (table : List Row) (u : String) :
    u ∈ tableUrls table ↔ table.any (fun r => r.payload.job_url == u) = true := by
  unfold tableUrls
  rw [List.any_eq_true, List.mem_map]
  constructor
  · rintro ⟨r, hr, he⟩
    exact ⟨r, hr, by simp [he]⟩
  · rintro ⟨r, hr, he⟩
    exact ⟨r, hr, by simpa using he⟩

/-- Helper: the two clients' `save_job` duplicate-check-then-insert bodies
coincide on the table model. -/
theorem postgres_save_job_eq (table : List Row) (jd : JobData) (now : Int) :
    postgres_save_job table jd now = supabase_save_job table jd now := rfl

/-- Helper: saving a job whose url is already present is a no-op returning
`False`. -/
theorem supabase_save_job_dup (table : List Row) (jd : JobData) (now : Int)
    (h : jd.job_url ∈ tableUrls table) :
    supabase_save_job table jd now = (false, table) := by
  unfold supabase_save_job
  rw [if_pos ((mem_tableUrls_iff_any table jd.job_url).mp h)]

/-- Helper: one `save_job` call preserves distinctness of the url column. -/
theorem supabase_save_job_nodup (table : List Row) (jd : JobData) (now : Int)
    (h : (tableUrls table).Nodup) :
    (tableUrls (supabase_save_job table jd now).2).Nodup := by
  unfold supabase_save_job
  split_ifs with hany
  · exact h
  · have hnot : jd.job_url ∉ tableUrls table := fun hm =>
      hany ((mem_tableUrls_iff_any table jd.job_url).mp hm)
    simp only [tableUrls, List.map_append, List.map_cons, List.map_nil] at h hnot ⊢
    simp [List.nodup_append, h, hnot]

/-- Helper: any sequence of `save_job` calls preserves url distinctness. -/
theorem supabase_save_all_nodup (jobs : List (JobData × Int)) :
    ∀ table : List Row, (tableUrls table).Nodup →
      (tableUrls (supabase_save_all table jobs)).Nodup := by
  induction jobs with
  | nil => intro table h; exact h
  | cons p rest ih =>
    intro table h
    show (tableUrls (supabase_save_all (supabase_save_job table p.1 p.2).2 rest)).Nodup
    exact ih _ (supabase_save_job_nodup table p.1 p.2 h)

/-- C1: in both storage clients, saving a job whose `job_url` already occurs
in the table inserts nothing, leaves the table unchanged and returns
`False`; consequently a single save, and any sequence of saves, preserves
distinctness of the `job_url` column. -/
theorem claimC1 (table : List Row) (jd : JobData) (now : Int)
    (jobs : List (JobData × Int)) :
    (jd.job_url ∈ tableUrls table →
        supabase_save_job table jd now = (false, table)
          ∧ postgres_save_job table jd now = (false, table))
      ∧ ((tableUrls table).Nodup →
          (tableUrls (supabase_save_job table jd now).2).Nodup
            ∧ (tableUrls (postgres_save_job table jd now).2).Nodup)
      ∧ ((tableUrls table).Nodup →
          (tableUrls (supabase_save_all table jobs)).Nodup
            ∧ (tableUrls (postgres_save_all table jobs)).Nodup) := by
  refine ⟨fun h => ⟨supabase_save_job_dup table jd now h, ?_⟩,
    fun h => ⟨supabase_save_job_nodup table jd now h, ?_⟩,
    fun h => ⟨supabase_save_all_nodup jobs table h, ?_⟩⟩
  · rw [postgres_save_job_eq]
    exact supabase_save_job_dup table jd now h
  · rw [postgres_save_job_eq]
    exact supabase_save_job_nodup table jd now h
  · show (tableUrls (supabase_save_all table jobs)).Nodup
    exact supabase_save_all_nodup jobs table h

/-- A concrete scraped record, for the C1 and C5 witnesses. -/
def sampleJobData : JobData :=
  ⟨"Line Cook", "Acme Foods", "Vancouver, BC", "vancouver", "BC", "cook",
   "cook things", "https://vancouver.craigslist.org/d/job/1.html", "craigslist",
   none, none, none, "full-time", "mid", "Not specified"⟩

/-- A concrete table row holding `sampleJobData`, for the C1 witness. -/
def sampleRow : Row := ⟨sampleJobData, true, 0, 0, 0⟩

/-- C1 witness: re-saving a concrete already-stored job is a no-op returning
`False` in both clients. -/
theorem claimC1_witness :
    supabase_save_job [sampleRow] sampleJobData 5 = (false, [sampleRow])
      ∧ postgres_save_job [sampleRow] sampleJobData 5 = (false, [sampleRow]) :=
  (claimC1 [sampleRow] sampleJobData 5 []).1 (by decide)

/-- Helper: mapping a function over a list relates every element to its
image. -/
theorem forall₂_map_self {α : Type} (R : α → α → Prop) (f : α → α)
    (h : ∀ a, R a (f a)) : ∀ l : List α, List.Forall₂ R l (l.map f)
  | [] => List.Forall₂.nil
  | a :: l => List.Forall₂.cons (h a) (forall₂_map_self R f h l)

/-- C3: in both clients, `cleanup_old_jobs` makes every row scraped strictly
before the cutoff inactive while touching none of its other scraped columns,
leaves every row scraped at or after the cutoff unchanged in all fields, and
returns the number of rows its update statement matched (for Supabase all
rows older than the cutoff; for Postgres those of them still active). -/
theorem claimC3 (table : List Row) (cutoff now : Int) :
    List.Forall₂ (fun old new =>
        (old.scraped_at < cutoff →
          new.is_active = false ∧ new.payload = old.payload
            ∧ new.scraped_at = old.scraped_at ∧ new.created_at = old.created_at)
          ∧ (cutoff ≤ old.scraped_at → new = old))
      table (supabase_cleanup_old_jobs table cutoff now).2
    ∧ List.Forall₂ (fun old new =>
        (old.scraped_at < cutoff →
          new.is_active = false ∧ new.payload = old.payload
            ∧ new.scraped_at = old.scraped_at ∧ new.created_at = old.created_at)
          ∧ (cutoff ≤ old.scraped_at → new = old))
      table (postgres_cleanup_old_jobs table cutoff now).2
    ∧ (supabase_cleanup_old_jobs table cutoff now).1
        = table.countP (fun r => decide (r.scraped_at < cutoff))
    ∧ (postgres_cleanup_old_jobs table cutoff now).1
        = table.countP (fun r => decide (r.scraped_at < cutoff) && r.is_active) := by
  refine ⟨?_, ?_, ?_, ?_⟩
  · apply forall₂_map_self
    intro r
    constructor
    · intro hold
      rw [if_pos hold]
      exact ⟨rfl, rfl, rfl, rfl⟩
    · intro hge
      rw [if_neg (by omega)]
  · apply forall₂_map_self
    intro r
    constructor
    · intro hold
      by_cases hact : r.is_active = true
      · rw [if_pos ⟨hold, hact⟩]
        exact ⟨rfl, rfl, rfl, rfl⟩
      · rw [if_neg (fun hc => hact hc.2)]
        exact ⟨by simpa using hact, rfl, rfl, rfl⟩
    · intro hge
      rw [if_neg (fun hc => by omega)]
  · exact (List.countP_eq_length_filter _ _).symm
  · exact (List.countP_eq_length_filter _ _).symm

/-- C6: the Supabase `save_job` retry loop makes at most 3 attempts, every
sleep between failed attempts is the fixed 2 seconds (fewer than 3 sleeps,
so no unbounded backoff), and when every attempt raises the call returns
`False` instead of propagating the exception. -/
theorem claimC6 (sched : Nat → SaveOutcome) :
    (supabase_save_job_retry sched).attemptsMade ≤ max_retries
      ∧ (∀ s ∈ (supabase_save_job_retry sched).sleeps, s = 2)
      ∧ (supabase_save_job_retry sched).sleeps.length < max_retries
      ∧ ((∀ i, i < max_retries → sched i = SaveOutcome.raiseExc) →
          (supabase_save_job_retry sched).result = false) := by
  have hmap : (List.range max_retries).map sched = [sched 0, sched 1, sched 2] := by
    simp [max_retries, List.range_succ]
  unfold supabase_save_job_retry
  rw [hmap]
  refine ⟨?_, ?_, ?_, ?_⟩
  · cases e0 : sched 0 <;> cases e1 : sched 1 <;> cases e2 : sched 2 <;> decide
  · cases e0 : sched 0 <;> cases e1 : sched 1 <;> cases e2 : sched 2 <;> decide
  · cases e0 : sched 0 <;> cases e1 : sched 1 <;> cases e2 : sched 2 <;> decide
  · intro h
    rw [h 0 (by decide), h 1 (by decide), h 2 (by decide)]
    rfl

/-- C6 witness: with every attempt raising, the retry loop returns `False`. -/
theorem claimC6_witness :
    (supabase_save_job_retry (fun _ => SaveOutcome.raiseExc)).result = false :=
  (claimC6 (fun _ => SaveOutcome.raiseExc)).2.2.2 (fun _ _ => rfl)

/-- C7: both scrapers' `scrape_jobs` return at most `max_jobs` records for
every city and every oracle of category results, and return the empty list
for a city outside the supported base-URL table. -/
theorem claimC7 (fetchS fetchC : String → Nat → List JobData) (city : String)
    (maxJobs : Nat) :
    (simple_scrape_jobs fetchS city maxJobs).length ≤ maxJobs
      ∧ (craigslist_scrape_jobs fetchC city maxJobs).length ≤ maxJobs
      ∧ (city ∉ base_url_cities →
          simple_scrape_jobs fetchS city maxJobs = []
            ∧ craigslist_scrape_jobs fetchC city maxJobs = []) := by
  refine ⟨?_, ?_, fun h => ⟨?_, ?_⟩⟩
  · unfold simple_scrape_jobs
    split_ifs
    · rw [List.length_take]
      exact Nat.min_le_left _ _
    · simp
  · unfold craigslist_scrape_jobs
    split_ifs
    · rw [List.length_take]
      exact Nat.min_le_left _ _
    · simp
  · unfold simple_scrape_jobs
    rw [if_neg h]
  · unfold craigslist_scrape_jobs
    rw [if_neg h]

/-- C7 witness: an unsupported city yields the empty list in both scrapers. -/
theorem claimC7_witness :
    simple_scrape_jobs (fun _ _ => []) "montreal" 5 = []
      ∧ craigslist_scrape_jobs (fun _ _ => []) "montreal" 5 = [] :=
  (claimC7 (fun _ _ => []) (fun _ _ => []) "montreal" 5).2.2 (by decide)

/-- Helper: running the scheduler timer for the rest of its period fires the
job exactly at the period boundary and resets the timer. -/
theorem schedTick_iterate (p : Nat) :
    ∀ (m c j : Nat), j + (m + 1) = p →
      (schedTick p)^[m + 1] (⟨c, j⟩ : SchedState) = ⟨c + 1, 0⟩ := by
  intro m
  induction m with
  | zero =>
    intro c j hj
    simp only [Nat.zero_add, Function.iterate_one]
    unfold schedTick
    rw [if_pos (show p ≤ j + 1 by omega)]
  | succ m ih =>
    intro c j hj
    rw [Function.iterate_succ_apply]
    have hstep : schedTick p ⟨c, j⟩ = ⟨c, j + 1⟩ := by
      unfold schedTick
      rw [if_neg (show ¬ p ≤ j + 1 by omega)]
    rw [hstep]
    exact ih c (j + 1) (by omega)

/-- Helper: over `k` full periods the scheduler performs exactly `k` more
cycles. -/
theorem schedTick_cycles (p : Nat) (hp : 1 ≤ p) :
    ∀ (k c : Nat), (schedTick p)^[k * p] (⟨c, 0⟩ : SchedState) = ⟨c + k, 0⟩ := by
  intro k
  induction k with
  | zero => intro c; simp
  | succ k ih =>
    intro c
    have hsplit : (k + 1) * p = p + k * p := by ring
    rw [hsplit, Function.iterate_add_apply, ih c]
    obtain ⟨q, rfl⟩ : ∃ q, p = q + 1 := ⟨p - 1, by omega⟩
    rw [schedTick_iterate (q + 1) q (c + k) 0 (by omega)]
    rfl

/-- Helper: once inside the scheduler loop the worker stays inside it, its
state following the timer. -/
theorem worker_step_running (intervalHours : Nat) :
    ∀ (n : Nat) (s : SchedState),
      (worker_step intervalHours)^[n] (WorkerProc.running s)
        = WorkerProc.running ((schedTick (60 * intervalHours))^[n] s) := by
  intro n
  induction n with
  | zero => intro s; rfl
  | succ n ih =>
    intro s
    rw [Function.iterate_succ_apply, Function.iterate_succ_apply]
    exact ih (schedTick (60 * intervalHours) s)

/-- C8: if `RUN_ONCE` lower-cases to `'true'` the worker performs exactly one
scraping cycle and has returned at every later time; for every other value
(including unset) it performs the initial cycle and is still inside the
scheduler loop after every number of minutes, having completed `1 + k`
cycles after `k` full `SCRAPE_INTERVAL_HOURS` periods. -/
theorem claimC8 (v : Option String) (intervalHours n k : Nat)
    (hi : 1 ≤ intervalHours) :
    (runOnceFlag v = true → worker_trace v intervalHours n = WorkerProc.finished 1)
      ∧ (runOnceFlag v = false →
          worker_trace v intervalHours n
              = WorkerProc.running ((schedTick (60 * intervalHours))^[n] ⟨1, 0⟩)
            ∧ worker_trace v intervalHours (k * (60 * intervalHours))
              = WorkerProc.running ⟨1 + k, 0⟩) := by
  constructor
  · intro h
    have hinit : worker_main_init v = WorkerProc.finished 1 := by
      simp [worker_main_init, h]
    unfold worker_trace
    rw [hinit]
    exact Function.iterate_fixed rfl n
  · intro h
    have hinit : worker_main_init v = WorkerProc.running ⟨1, 0⟩ := by
      simp [worker_main_init, h]
    constructor
    · unfold worker_trace
      rw [hinit, worker_step_running]
    · unfold worker_trace
      rw [hinit, worker_step_running,
        schedTick_cycles (60 * intervalHours) (by omega) k 1]

/-- C8 witness: with `RUN_ONCE=TRUE` the worker has returned after one cycle;
unset, it is still looping after two full 1-hour periods, with 3 cycles done. -/
theorem claimC8_witness :
    worker_trace (some "TRUE") 6 5 = WorkerProc.finished 1
      ∧ worker_trace none 1 120 = WorkerProc.running ⟨3, 0⟩ := by
  constructor
  · exact (claimC8 (some "TRUE") 6 5 0 (by decide)).1 (by decide)
  · have h := ((claimC8 none 1 120 2 (by decide)).2 (by decide)).2
    simpa using h

/-- Helper: the fields of a successfully parsed listing are the detail-dict
lookups with their documented defaults. -/
theorem parse_job_listing_fields (base_url : String) (href : Option String)
    (title : String) (d : Details) (now : Int) (j : JobData)
    (hj : simple_parse_job_listing base_url href title d now = some j) :
    j.company = d.company.getD "Company Not Listed"
      ∧ j.salary = d.salary.getD "Not specified"
      ∧ j.job_type = d.job_type.getD "full-time"
      ∧ j.experience_level = d.experience_level.getD "mid" := by
  cases href with
  | none => exact Option.noConfusion hj
  | some u =>
    unfold simple_parse_job_listing at hj
    dsimp only at hj
    split_ifs at hj <;>
      first
        | exact Option.noConfusion hj
        | (injection hj with hx; subst hx; exact ⟨rfl, rfl, rfl, rfl⟩)

/-- C5: a parsed listing never raises on missing detail fields — with an
empty details dict (the total-failure case) the record carries exactly the
documented default strings; in general every missing field degrades to its
default; and the Craigslist company extractor always returns a nonempty
string, either `"Company Not Listed"` or one of the first three stripped
description lines. -/
theorem claimC5 (base_url : String) (href : Option String) (title : String)
    (d : Details) (now : Int) :
    (∀ j, simple_parse_job_listing base_url href title emptyDetails now = some j →
        j.company = "Company Not Listed" ∧ j.salary = "Not specified"
          ∧ j.job_type = "full-time" ∧ j.experience_level = "mid")
      ∧ (∀ j, simple_parse_job_listing base_url href title d now = some j →
          j.company = d.company.getD "Company Not Listed"
            ∧ j.salary = d.salary.getD "Not specified"
            ∧ j.job_type = d.job_type.getD "full-time"
            ∧ j.experience_level = d.experience_level.getD "mid")
      ∧ (∀ desc : String, craigslist_extract_company desc ≠ ""
          ∧ (craigslist_extract_company desc = "Company Not Listed"
              ∨ craigslist_extract_company desc
                  ∈ ((desc.splitOn "\n").take 3).map pyStrip)) := by
  refine ⟨?_, ?_, ?_⟩
  · intro j hj
    exact parse_job_listing_fields base_url href title emptyDetails now j hj
  · intro j hj
    exact parse_job_listing_fields base_url href title d now j hj
  · intro desc
    have hunf : craigslist_extract_company desc
        = ((((desc.splitOn "\n").take 3).map pyStrip).find? (fun l =>
            !(l == "") && decide (l.length < 100)
              && !(company_skip_patterns.any (fun p => strIn p (pyLower l))))).getD
            "Company Not Listed" := rfl
    rcases hfind : (((desc.splitOn "\n").take 3).map pyStrip).find? (fun l =>
        !(l == "") && decide (l.length < 100)
          && !(company_skip_patterns.any (fun p => strIn p (pyLower l)))) with _ | l
    · rw [hunf, hfind]
      exact ⟨by decide, Or.inl rfl⟩
    · rw [hunf, hfind]
      have hp := List.find?_some hfind
      have hmem := List.mem_of_find?_eq_some hfind
      refine ⟨fun he => ?_, Or.inr hmem⟩
      have hl : l = "" := by simpa using he
      rw [hl] at hp
      exact absurd hp (by decide)

/-- The record `_parse_job_listing` produces from a concrete listing link
with an entirely failed detail fetch, for the C5 witness. -/
def sampleParsedJob : JobData :=
  ⟨"Line Cook", "Company Not Listed", "Vancouver, Canada", "vancouver", "BC",
   "Line Cook", "Line Cook", "https://vancouver.craigslist.org/d/cook/1.html",
   "craigslist", none, none, some 0, "full-time", "mid", "Not specified"⟩

/-- C5 witness: on a concrete listing whose detail fetch failed entirely, the
parsed record carries exactly the documented default strings. -/
theorem claimC5_witness :
    sampleParsedJob.company = "Company Not Listed"
      ∧ sampleParsedJob.salary = "Not specified"
      ∧ sampleParsedJob.job_type = "full-time"
      ∧ sampleParsedJob.experience_level = "mid" :=
  (claimC5 "https://vancouver.craigslist.org" (some "/d/cook/1.html") "Line Cook"
      emptyDetails 0).1 sampleParsedJob (by decide)

end SwipeHire
